import Mathlib

/-!
# Table introspection (`internal/check/tb_info.go`)

A shallow embedding of the dialect dispatcher, the two metadata providers and the
column/index merge of `getTbColumns`, followed by the properties established about them.

Conventions of the embedding.

* A Go slice is a `List`; the `nil` slice and the empty slice are both `[]`.
* A Go `error` is an `Option String`: `none` is `nil`, `some e` carries the text `err.Error()`.
* The connection (`*gorm.DB`) is an external collaborator. Its answers are the fields of
  `DB`; a nil connection is `none : Option DB`.
* A call either returns or stops with a Go `panic`; both are results of the total function
  `Run.out`. Every call made on the connection, and every call of a provider method, is
  recorded in order in `Run.trace`.
-/

namespace Check

/-! ## Data model -/

/-- Modelled from the spec: `model.Index` is declared in `internal/model`, which is not part of
the sources at hand. One row of the index catalog: owning table, column name, index name,
sequence-in-index and the non-unique flag. -/
structure Index where
  TableName : String
  ColumnName : String
  IndexName : String
  SeqInIndex : Int
  NonUnique : Bool
  deriving DecidableEq, Repr

/-- Modelled from the spec: `model.Column` is declared in `internal/model`, which is not part of
the sources at hand. One table column: name, comment, data type, nullability, key role, full
column type, default value, extra attributes and the attached index entries. -/
structure Column where
  ColumnName : String
  ColumnComment : String
  DataType : String
  IsNullable : Bool
  ColumnKey : String
  ColumnType : String
  ColumnDefault : Option String
  Extra : String
  Indexes : List Index
  deriving DecidableEq, Repr

/-- The part of `sql.ColumnType` that the code reads: `Name()` and `DatabaseTypeName()`. -/
structure ColumnType where
  Name : String
  DatabaseTypeName : String
  deriving DecidableEq, Repr

/-- The connection. `name` is `db.Name()`; `scanColumns q schema table` is the pair
(`result` after `db.Raw(q, schema, table).Scan(&result)`, its `.Error`) for a column target;
`scanIndex` is the same for an index target; `rows q` is `db.Raw(q).Rows()` followed by
`rows.ColumnTypes()`, each of which may fail. -/
structure DB where
  name : String
  scanColumns : String → String → String → List Column × Option String
  scanIndex : String → String → String → List Index × Option String
  rows : String → Except String (Except String (List ColumnType))

/-! ## Calls, traces and outcomes -/

/-- What is observable of a run: the calls made on the connection and on the provider. -/
inductive Event where
  /-- The call `db.Name()`, made when a provider is selected. -/
  | dbName
  /-- The provider method `GetTbColumns(schema, table)` is invoked. -/
  | getTbColumns (schemaName tableName : String)
  /-- The provider method `GetTbIndex(schema, table)` is invoked. -/
  | getTbIndex (schemaName tableName : String)
  /-- The call `db.Raw(sql, args...)` followed by `Scan` or `Rows`. -/
  | query (sql : String) (args : List String)
  /-- The call `db.Logger.Warn(ctx, format, args...)`. -/
  | warn (format : String) (args : List String)
  deriving DecidableEq, Repr

/-- True on a warning diagnostic. -/
def Event.isWarn : Event → Bool
  | .warn _ _ => true
  | _ => false

/-- True on an invocation of the provider's `GetTbIndex`. -/
def Event.isGetTbIndex : Event → Bool
  | .getTbIndex _ _ => true
  | _ => false

/-- True on a query sent to the database. -/
def Event.isQuery : Event → Bool
  | .query _ _ => true
  | _ => false

/-- How a call ends: it returns a value, or it stops with a Go panic carrying a message. -/
inductive Outcome (α : Type) where
  | ret (a : α)
  | panicked (msg : String)
  deriving DecidableEq, Repr

/-- A finished call: what it did, in order, and how it ended. -/
structure Run (α : Type) where
  trace : List Event
  out : Outcome α
  deriving DecidableEq, Repr

namespace Run

/-- Sequencing: a panic stops the run, keeping what was done so far. -/
def bind {α β : Type} (x : Run α) (f : α → Run β) : Run β :=
  match x.out with
  | .ret a => ⟨x.trace ++ (f a).trace, (f a).out⟩
  | .panicked msg => ⟨x.trace, .panicked msg⟩

/-- Record one event. -/
def emit (e : Event) : Run Unit := ⟨[e], .ret ()⟩

/-- Stop with a Go panic. -/
def stop {α : Type} (msg : String) : Run α := ⟨[], .panicked msg⟩

end Run

instance : Monad Run where
  pure a := ⟨[], .ret a⟩
  bind := Run.bind

/-! ## Constants of the source -/

/-- The column catalog query of MySQL. -/
def columnQuery : String :=
  "SELECT COLUMN_NAME,COLUMN_COMMENT,DATA_TYPE,IS_NULLABLE,COLUMN_KEY,COLUMN_TYPE,COLUMN_DEFAULT,EXTRA " ++
  "FROM information_schema.COLUMNS " ++
  "WHERE TABLE_SCHEMA = ? AND TABLE_NAME =? " ++
  "ORDER BY ORDINAL_POSITION"

/-- The index catalog query of MySQL. -/
def indexQuery : String :=
  "SELECT TABLE_NAME,COLUMN_NAME,INDEX_NAME,SEQ_IN_INDEX,NON_UNIQUE " ++
  "FROM information_schema.STATISTICS " ++
  "WHERE TABLE_SCHEMA = ? AND TABLE_NAME =?"

/-- The column catalog query of PostgreSQL; it reports the fixed column type varchar. -/
def columnQueryPg : String :=
  "SELECT COLUMN_NAME AS \"COLUMN_NAME\",'' AS \"COLUMN_COMMENT\",DATA_TYPE AS \"DATA_TYPE\",IS_NULLABLE AS \"IS_NULLABLE\"," ++
  "'' AS \"COLUMN_KEY\",'varchar' AS \"COLUMN_TYPE\", COLUMN_DEFAULT AS \"COLUMN_DEFAULT\",'' AS \"EXTRA\" " ++
  "FROM information_schema.COLUMNS " ++
  "WHERE TABLE_SCHEMA = ? AND TABLE_NAME =? " ++
  "ORDER BY ORDINAL_POSITION"

/-- The text of the runtime panic raised by a method that reads a field through a nil pointer. -/
def nilDereference : String :=
  "runtime error: invalid memory address or nil pointer dereference"

/-! ## Providers -/

/-- The interface `ITableInfo`, with its two implementations. -/
inductive ITableInfo where
  | mysqlTableInfo (db : DB)
  | postgresTableInfo (db : DB)

/-- Source `getITableInfo`: the switch on `db.Name()`. -/
def getITableInfo (db : DB) : Run ITableInfo := do
  Run.emit .dbName
  if db.name = "mysql" then
    pure (.mysqlTableInfo db)
  else if db.name = "postgres" then
    pure (.postgresTableInfo db)
  else
    Run.stop "unsupported database"

/-- Source `(*mysqlTableInfo).GetTbColumns`: the scanned list together with the scan error.
The returned `result` is the variable as `Scan` left it, also when the scan fails. -/
def mysqlTableInfo.GetTbColumns (db : DB) (schemaName tableName : String) :
    Run (List Column × Option String) := do
  Run.emit (.query columnQuery [schemaName, tableName])
  pure (db.scanColumns columnQuery schemaName tableName)

/-- Source `(*mysqlTableInfo).GetTbIndex`: the scanned list together with the scan error,
read as in `GetTbColumns`. -/
def mysqlTableInfo.GetTbIndex (db : DB) (schemaName tableName : String) :
    Run (List Index × Option String) := do
  Run.emit (.query indexQuery [schemaName, tableName])
  pure (db.scanIndex indexQuery schemaName tableName)

/-- The Go map `m` of `(*postgresTableInfo).GetTbColumns` after the loop
`for i := range types { m[types[i].Name()] = types[i] }`; a later entry replaces an earlier
one of the same name, and an absent key reads as the nil pointer (`none`). -/
def typeMap (types : List ColumnType) : String → Option ColumnType :=
  types.foldl (fun m t => fun k => if k = t.Name then some t else m k) (fun _ => none)

/-- The loop `for _, r := range result` of `(*postgresTableInfo).GetTbColumns`. The method
`t.Name()` reads a field of its receiver, so it panics when `m[r.ColumnName]` is nil. -/
def enrich (m : String → Option ColumnType) : List Column → Run (List Column)
  | [] => pure []
  | r :: rest => do
    let r1 ← (match m r.ColumnName with
      | none => (Run.stop nilDereference : Run Column)
      | some t =>
        if t.Name = r.ColumnName then pure { r with ColumnType := t.DatabaseTypeName }
        else pure r)
    let rest1 ← enrich m rest
    pure (r1 :: rest1)

/-- Source `(*postgresTableInfo).GetTbColumns`: the catalog query, then the zero-row probe,
then the join of the probe's descriptors onto the columns by name. -/
def postgresTableInfo.GetTbColumns (db : DB) (schemaName tableName : String) :
    Run (List Column × Option String) := do
  Run.emit (.query columnQueryPg [schemaName, tableName])
  match db.scanColumns columnQueryPg schemaName tableName with
  | (_, some err) => pure ([], some err)
  | (result, none) =>
    Run.emit (.query ("select * from " ++ tableName ++ " LIMIT 0") [])
    match db.rows ("select * from " ++ tableName ++ " LIMIT 0") with
    | .error err => pure ([], some err)
    | .ok (.error err) => pure ([], some err)
    | .ok (.ok types) =>
      let result1 ← enrich (typeMap types) result
      pure (result1, none)

/-- Source `(*postgresTableInfo).GetTbIndex`: an unconditional panic. -/
def postgresTableInfo.GetTbIndex (_db : DB) (_schemaName _tableName : String) :
    Run (List Index × Option String) :=
  Run.stop "Not support postgresql"

/-- Method dispatch of the interface on `GetTbColumns`. -/
def ITableInfo.GetTbColumns : ITableInfo → String → String → Run (List Column × Option String)
  | .mysqlTableInfo db, s, t => Check.mysqlTableInfo.GetTbColumns db s t
  | .postgresTableInfo db, s, t => Check.postgresTableInfo.GetTbColumns db s t

/-- Method dispatch of the interface on `GetTbIndex`. -/
def ITableInfo.GetTbIndex : ITableInfo → String → String → Run (List Index × Option String)
  | .mysqlTableInfo db, s, t => Check.mysqlTableInfo.GetTbIndex db s t
  | .postgresTableInfo db, s, t => Check.postgresTableInfo.GetTbIndex db s t

/-! ## Merge -/

/-- Modelled from the spec: `model.GroupByColumn` is defined in `internal/model`, which is not
part of the sources at hand. The fetched entries are grouped into a mapping keyed by column
name; each group is an ordered sequence that keeps the fetch order. The mapping is a Go map,
read here through its lookup, which gives the nil slice for an absent key. -/
def GroupByColumn (indexList : List Index) : String → List Index :=
  indexList.foldl
    (fun m idx => fun k => if k = idx.ColumnName then m idx.ColumnName ++ [idx] else m k)
    (fun _ => [])

/-- Source `getTbColumns`. -/
def getTbColumns (db : Option DB) (schemaName tableName : String) (indexTag : Bool) :
    Run (List Column × Option String) :=
  match db with
  | none => pure ([], some "gorm db is nil")
  | some d => do
    let mt ← getITableInfo d
    Run.emit (.getTbColumns schemaName tableName)
    let (result, err) ← mt.GetTbColumns schemaName tableName
    match err with
    | some e => pure ([], some e)
    | none =>
      if !indexTag || result.length = 0 then
        pure (result, none)
      else do
        Run.emit (.getTbIndex schemaName tableName)
        let (index, err) ← mt.GetTbIndex schemaName tableName
        match err with
        | some e =>
          Run.emit (.warn "GetTbIndex for %s,err=%s" [tableName, e])
          pure (result, none)
        | none =>
          if index.length = 0 then
            pure (result, none)
          else
            let im := GroupByColumn index
            pure (result.map (fun c => { c with Indexes := im c.ColumnName }), none)

/-! ## Frame of the merge -/

/-- Two columns agree on every field other than `Indexes`. -/
def Column.sameOffIndexes (c r : Column) : Prop :=
  r.ColumnName = c.ColumnName ∧ r.ColumnComment = c.ColumnComment ∧ r.DataType = c.DataType ∧
  r.IsNullable = c.IsNullable ∧ r.ColumnKey = c.ColumnKey ∧ r.ColumnType = c.ColumnType ∧
  r.ColumnDefault = c.ColumnDefault ∧ r.Extra = c.Extra

instance (c r : Column) : Decidable (Column.sameOffIndexes c r) := by
  unfold Column.sameOffIndexes
  infer_instance

/-- Two columns agree on every field other than `ColumnType`. -/
def Column.sameOffColumnType (c r : Column) : Prop :=
  r.ColumnName = c.ColumnName ∧ r.ColumnComment = c.ColumnComment ∧ r.DataType = c.DataType ∧
  r.IsNullable = c.IsNullable ∧ r.ColumnKey = c.ColumnKey ∧
  r.ColumnDefault = c.ColumnDefault ∧ r.Extra = c.Extra ∧ r.Indexes = c.Indexes

instance (c r : Column) : Decidable (Column.sameOffColumnType c r) := by
  unfold Column.sameOffColumnType
  infer_instance

/-- The descriptor that the probe reports for a column name: the last one of that name. -/
def lastDescriptor (types : List ColumnType) (name : String) : Option ColumnType :=
  (types.filter (fun d => d.Name == name)).getLast?

/-! ## Sample data -/

/-- A column with the given name and column type, and nothing attached. -/
def mkColumn (name ty : String) : Column :=
  { ColumnName := name, ColumnComment := "", DataType := "int", IsNullable := false,
    ColumnKey := "", ColumnType := ty, ColumnDefault := none, Extra := "", Indexes := [] }

/-- An index entry of table t for the given column, index name and sequence number. -/
def mkIndex (col name : String) (seq : Int) : Index :=
  { TableName := "t", ColumnName := col, IndexName := name, SeqInIndex := seq, NonUnique := false }

/-- A connection whose answers do not depend on the query text. -/
def constDB (name : String) (cols : List Column × Option String)
    (idx : List Index × Option String)
    (probe : Except String (Except String (List ColumnType))) : DB :=
  { name := name, scanColumns := fun _ _ _ => cols, scanIndex := fun _ _ _ => idx,
    rows := fun _ => probe }

/-! ## Facts about runs and providers -/

theorem Run.bind_mk_ret {α β : Type} (tr : List Event) (a : α) (f : α → Run β) :
    Run.bind ⟨tr, .ret a⟩ f = ⟨tr ++ (f a).trace, (f a).out⟩ := rfl

theorem Run.bind_mk_panicked {α β : Type} (tr : List Event) (msg : String) (f : α → Run β) :
    Run.bind (⟨tr, .panicked msg⟩ : Run α) f = ⟨tr, .panicked msg⟩ := rfl

theorem getITableInfo_trace (db : DB) : (getITableInfo db).trace = [Event.dbName] := by
  unfold getITableInfo
  by_cases h1 : db.name = "mysql"
  · simp [h1, bind, Run.bind, Run.emit, pure]
  · by_cases h2 : db.name = "postgres"
    · simp [h2, bind, Run.bind, Run.emit, pure]
    · simp [h1, h2, bind, Run.bind, Run.emit, Run.stop]

theorem getITableInfo_ret (db : DB) (tr0 : List Event) (mt : ITableInfo)
    (h : getITableInfo db = ⟨tr0, .ret mt⟩) :
    tr0 = [Event.dbName] ∧
    ((db.name = "mysql" ∧ mt = .mysqlTableInfo db) ∨
     (db.name = "postgres" ∧ mt = .postgresTableInfo db)) := by
  have ht := getITableInfo_trace db
  rw [h] at ht
  refine ⟨ht, ?_⟩
  unfold getITableInfo at h
  by_cases h1 : db.name = "mysql"
  · left
    simp [h1, bind, Run.bind, Run.emit, pure] at h
    exact ⟨h1, h.2.symm⟩
  · by_cases h2 : db.name = "postgres"
    · right
      simp [h2, bind, Run.bind, Run.emit, pure] at h
      exact ⟨h2, h.2.symm⟩
    · simp [h1, h2, bind, Run.bind, Run.emit, Run.stop] at h

theorem getITableInfo_postgres (db : DB) (h : db.name = "postgres") :
    getITableInfo db = ⟨[.dbName], .ret (.postgresTableInfo db)⟩ := by
  simp [getITableInfo, h, bind, Run.bind, Run.emit, pure]

theorem enrich_trace (m : String → Option ColumnType) (cols : List Column) :
    (enrich m cols).trace = [] := by
  induction cols with
  | nil => rfl
  | cons r rest ih =>
    unfold enrich
    cases hm : m r.ColumnName with
    | none => simp [bind, Run.bind, Run.stop]
    | some t =>
      by_cases hn : t.Name = r.ColumnName
      · simp only [hn, if_true, bind, pure, Run.bind]
        cases ho : (enrich m rest).out <;> simp [ih]
      · simp only [hn, if_false, bind, pure, Run.bind]
        cases ho : (enrich m rest).out <;> simp [ih]

theorem postgres_GetTbColumns_trace (db : DB) (s t : String) :
    ∀ e ∈ (postgresTableInfo.GetTbColumns db s t).trace, e.isQuery = true := by
  unfold postgresTableInfo.GetTbColumns
  rcases hsc : db.scanColumns columnQueryPg s t with ⟨res, _ | err⟩
  · rcases hr : db.rows ("select * from " ++ t ++ " LIMIT 0") with err | (err | types)
    · simp [bind, Run.bind, Run.emit, pure, Event.isQuery]
    · simp [bind, Run.bind, Run.emit, pure, Event.isQuery]
    · have htr := enrich_trace (typeMap types) res
      cases ho : (enrich (typeMap types) res).out <;>
        simp [bind, Run.bind, Run.emit, pure, Event.isQuery, htr, ho]
  · simp [bind, Run.bind, Run.emit, pure, Event.isQuery]

theorem ITableInfo.GetTbColumns_trace (mt : ITableInfo) (s t : String) :
    ∀ e ∈ (mt.GetTbColumns s t).trace, e.isQuery = true := by
  cases mt with
  | mysqlTableInfo db =>
    simp [ITableInfo.GetTbColumns, mysqlTableInfo.GetTbColumns, bind, Run.bind, Run.emit, pure,
      Event.isQuery]
  | postgresTableInfo db => exact postgres_GetTbColumns_trace db s t

theorem ITableInfo.GetTbIndex_trace (mt : ITableInfo) (s t : String) :
    ∀ e ∈ (mt.GetTbIndex s t).trace, e.isQuery = true := by
  cases mt with
  | mysqlTableInfo db =>
    simp [ITableInfo.GetTbIndex, mysqlTableInfo.GetTbIndex, bind, Run.bind, Run.emit, pure,
      Event.isQuery]
  | postgresTableInfo db =>
    simp [ITableInfo.GetTbIndex, postgresTableInfo.GetTbIndex, Run.stop]

theorem Event.isWarn_of_isQuery (e : Event) (h : e.isQuery = true) : e.isWarn = false := by
  cases e <;> simp_all [Event.isQuery, Event.isWarn]

theorem Event.isGetTbIndex_of_isQuery (e : Event) (h : e.isQuery = true) :
    e.isGetTbIndex = false := by
  cases e <;> simp_all [Event.isQuery, Event.isGetTbIndex]

theorem filter_isWarn_of_queries (tr : List Event) (h : ∀ e ∈ tr, e.isQuery = true) :
    tr.filter Event.isWarn = [] := by
  rw [List.filter_eq_nil_iff]
  intro e he
  simp [Event.isWarn_of_isQuery e (h e he)]

/-- The run of `getTbColumns` up to and including the provider's column fetch. -/
theorem getTbColumns_step (db : DB) (mt : ITableInfo) (tr0 trc : List Event)
    (res : List Column) (err : Option String) (s t : String) (tag : Bool)
    (h0 : getITableInfo db = ⟨tr0, .ret mt⟩)
    (hc : mt.GetTbColumns s t = ⟨trc, .ret (res, err)⟩) :
    getTbColumns (some db) s t tag =
      Run.bind (⟨tr0 ++ Event.getTbColumns s t :: trc, .ret ()⟩ : Run Unit) (fun _ =>
        match err with
        | some e => pure ([], some e)
        | none =>
          if !tag || res.length = 0 then pure (res, none)
          else
            Run.bind (Run.emit (.getTbIndex s t)) (fun _ =>
              Run.bind (mt.GetTbIndex s t) (fun p =>
                match p.2 with
                | some e =>
                  Run.bind (Run.emit (.warn "GetTbIndex for %s,err=%s" [t, e]))
                    (fun _ => pure (res, none))
                | none =>
                  if p.1.length = 0 then pure (res, none)
                  else pure (res.map (fun c =>
                    { c with Indexes := GroupByColumn p.1 c.ColumnName }), none)))) := by
  simp only [getTbColumns, bind, h0, hc, Run.bind, Run.emit, List.append_assoc,
    List.singleton_append, List.nil_append]
  cases err with
  | some e => simp
  | none =>
    by_cases hskip : (!tag || decide (res.length = 0)) = true
    · simp only [hskip, if_true]
      simp
    · simp only [hskip]
      simp only [Bool.false_eq_true, if_false]
      rcases hi : mt.GetTbIndex s t with ⟨tri, (⟨idx, ei⟩ | msg)⟩
      · cases ei <;> simp
      · simp

theorem getTbColumns_prefix_quiet (db : DB) (mt : ITableInfo) (tr0 trc : List Event)
    (res : List Column) (err : Option String) (s t : String)
    (h0 : getITableInfo db = ⟨tr0, .ret mt⟩)
    (hc : mt.GetTbColumns s t = ⟨trc, .ret (res, err)⟩) :
    ∀ ev ∈ tr0 ++ Event.getTbColumns s t :: trc,
      ev.isGetTbIndex = false ∧ ev.isWarn = false := by
  have h1 := (getITableInfo_ret db tr0 mt h0).1
  have h2 := ITableInfo.GetTbColumns_trace mt s t
  rw [hc] at h2
  intro ev hev
  simp only [h1, List.mem_append, List.mem_cons, List.mem_singleton, List.not_mem_nil,
    or_false] at hev
  rcases hev with rfl | rfl | hq
  · exact ⟨rfl, rfl⟩
  · exact ⟨rfl, rfl⟩
  · exact ⟨Event.isGetTbIndex_of_isQuery ev (h2 ev hq), Event.isWarn_of_isQuery ev (h2 ev hq)⟩

/-! ## Guard and dispatch -/

/-- C5. With a nil connection `getTbColumns` returns the nil list and the error
"gorm db is nil", and its trace is empty: no provider is selected, no query is sent and no
warning is emitted, whatever the schema, the table and the index flag. -/
theorem getTbColumns_nil_connection (schemaName tableName : String) (indexTag : Bool) :
    getTbColumns none schemaName tableName indexTag =
      ⟨[], .ret ([], some "gorm db is nil")⟩ := rfl

/-- C6. `getITableInfo` gives the MySQL provider for the name "mysql" and the Postgres
provider for the name "postgres"; for every other name it panics with "unsupported database"
and returns no provider, and then `getTbColumns` ends with the same panic after the single
call `db.Name()`: no query is sent and no column list is returned. -/
theorem getITableInfo_dispatch (db : DB) :
    (db.name = "mysql" → getITableInfo db = ⟨[.dbName], .ret (.mysqlTableInfo db)⟩) ∧
    (db.name = "postgres" → getITableInfo db = ⟨[.dbName], .ret (.postgresTableInfo db)⟩) ∧
    (db.name ≠ "mysql" → db.name ≠ "postgres" →
      getITableInfo db = ⟨[.dbName], .panicked "unsupported database"⟩ ∧
      ∀ (schemaName tableName : String) (indexTag : Bool),
        getTbColumns (some db) schemaName tableName indexTag =
          ⟨[.dbName], .panicked "unsupported database"⟩) := by
  refine ⟨?_, ?_, ?_⟩
  · intro h
    simp [getITableInfo, h, bind, Run.bind, Run.emit, pure]
  · intro h
    simp [getITableInfo, h, bind, Run.bind, Run.emit, pure]
  · intro h1 h2
    have hd : getITableInfo db = ⟨[.dbName], .panicked "unsupported database"⟩ := by
      simp [getITableInfo, h1, h2, bind, Run.bind, Run.emit, Run.stop]
    refine ⟨hd, ?_⟩
    intro s t tag
    simp [getTbColumns, bind, hd, Run.bind]

/-- The names "", "MySQL" and "mysql", "postgres" exercise the three branches of the
dispatch. -/
theorem getITableInfo_dispatch_witness :
    getITableInfo (constDB "mysql" ([], none) ([], none) (.ok (.ok []))) =
      ⟨[.dbName], .ret (.mysqlTableInfo (constDB "mysql" ([], none) ([], none) (.ok (.ok []))))⟩ ∧
    getITableInfo (constDB "postgres" ([], none) ([], none) (.ok (.ok []))) =
      ⟨[.dbName],
        .ret (.postgresTableInfo (constDB "postgres" ([], none) ([], none) (.ok (.ok []))))⟩ ∧
    getTbColumns (some (constDB "MySQL" ([mkColumn "a" "int"], none) ([], none) (.ok (.ok []))))
      "s" "t" true = ⟨[.dbName], .panicked "unsupported database"⟩ ∧
    getTbColumns (some (constDB "" ([mkColumn "a" "int"], none) ([], none) (.ok (.ok []))))
      "s" "t" false = ⟨[.dbName], .panicked "unsupported database"⟩ :=
  ⟨(getITableInfo_dispatch (constDB "mysql" ([], none) ([], none) (.ok (.ok [])))).1 rfl,
   (getITableInfo_dispatch (constDB "postgres" ([], none) ([], none) (.ok (.ok [])))).2.1 rfl,
   ((getITableInfo_dispatch
      (constDB "MySQL" ([mkColumn "a" "int"], none) ([], none) (.ok (.ok [])))).2.2
      (by decide) (by decide)).2 "s" "t" true,
   ((getITableInfo_dispatch
      (constDB "" ([mkColumn "a" "int"], none) ([], none) (.ok (.ok [])))).2.2
      (by decide) (by decide)).2 "s" "t" false⟩

/-! ## Column fetch and the skipped index phase -/

/-- C4. When the selected provider's `GetTbColumns` returns an error `e`, possibly next to a
list `res` that is already filled in, `getTbColumns` returns the nil list with exactly `e`;
its trace ends with the column fetch, and holds no invocation of `GetTbIndex` and no
warning. -/
theorem getTbColumns_column_error (db : DB) (mt : ITableInfo) (tr0 trc : List Event)
    (res : List Column) (e : String) (schemaName tableName : String) (indexTag : Bool)
    (h0 : getITableInfo db = ⟨tr0, .ret mt⟩)
    (hc : mt.GetTbColumns schemaName tableName = ⟨trc, .ret (res, some e)⟩) :
    getTbColumns (some db) schemaName tableName indexTag =
      ⟨tr0 ++ Event.getTbColumns schemaName tableName :: trc, .ret ([], some e)⟩ ∧
    ∀ ev ∈ (getTbColumns (some db) schemaName tableName indexTag).trace,
      ev.isGetTbIndex = false ∧ ev.isWarn = false := by
  have hrun : getTbColumns (some db) schemaName tableName indexTag =
      ⟨tr0 ++ Event.getTbColumns schemaName tableName :: trc, .ret ([], some e)⟩ := by
    rw [getTbColumns_step db mt tr0 trc res (some e) schemaName tableName indexTag h0 hc]
    simp [Run.bind, pure]
  refine ⟨hrun, ?_⟩
  rw [hrun]
  exact getTbColumns_prefix_quiet db mt tr0 trc res (some e) schemaName tableName h0 hc

/-- A MySQL connection whose column scan fails after one row was read. -/
theorem getTbColumns_column_error_witness :
    getTbColumns (some (constDB "mysql" ([mkColumn "id" "int"], some "scan failed")
        ([mkIndex "id" "PRIMARY" 1], none) (.ok (.ok [])))) "shop" "orders" true =
      ⟨[.dbName] ++ Event.getTbColumns "shop" "orders" :: [.query columnQuery ["shop", "orders"]],
        .ret ([], some "scan failed")⟩ ∧
    ∀ ev ∈ (getTbColumns (some (constDB "mysql" ([mkColumn "id" "int"], some "scan failed")
        ([mkIndex "id" "PRIMARY" 1], none) (.ok (.ok [])))) "shop" "orders" true).trace,
      ev.isGetTbIndex = false ∧ ev.isWarn = false :=
  getTbColumns_column_error
    (constDB "mysql" ([mkColumn "id" "int"], some "scan failed")
      ([mkIndex "id" "PRIMARY" 1], none) (.ok (.ok [])))
    (.mysqlTableInfo (constDB "mysql" ([mkColumn "id" "int"], some "scan failed")
      ([mkIndex "id" "PRIMARY" 1], none) (.ok (.ok []))))
    [.dbName] [.query columnQuery ["shop", "orders"]] [mkColumn "id" "int"] "scan failed"
    "shop" "orders" true rfl rfl

/-- C3. When the selected provider's `GetTbColumns` succeeds with `cols`, and the index flag
is false or `cols` is empty, `getTbColumns` returns `cols` itself with a nil error; its trace
ends with the column fetch, and holds no invocation of `GetTbIndex` and no warning. -/
theorem getTbColumns_skip_index (db : DB) (mt : ITableInfo) (tr0 trc : List Event)
    (cols : List Column) (schemaName tableName : String) (indexTag : Bool)
    (h0 : getITableInfo db = ⟨tr0, .ret mt⟩)
    (hc : mt.GetTbColumns schemaName tableName = ⟨trc, .ret (cols, none)⟩)
    (hskip : indexTag = false ∨ cols = []) :
    getTbColumns (some db) schemaName tableName indexTag =
      ⟨tr0 ++ Event.getTbColumns schemaName tableName :: trc, .ret (cols, none)⟩ ∧
    ∀ ev ∈ (getTbColumns (some db) schemaName tableName indexTag).trace,
      ev.isGetTbIndex = false ∧ ev.isWarn = false := by
  have hrun : getTbColumns (some db) schemaName tableName indexTag =
      ⟨tr0 ++ Event.getTbColumns schemaName tableName :: trc, .ret (cols, none)⟩ := by
    rw [getTbColumns_step db mt tr0 trc cols none schemaName tableName indexTag h0 hc]
    rcases hskip with h | h
    · subst h
      simp [Run.bind, pure]
    · subst h
      simp [Run.bind, pure]
  refine ⟨hrun, ?_⟩
  rw [hrun]
  exact getTbColumns_prefix_quiet db mt tr0 trc cols none schemaName tableName h0 hc

/-- A MySQL table without columns, asked for with the index flag set. -/
theorem getTbColumns_skip_index_witness :
    getTbColumns (some (constDB "mysql" ([], none)
        ([mkIndex "id" "PRIMARY" 1], none) (.ok (.ok [])))) "shop" "orders" true =
      ⟨[.dbName] ++ Event.getTbColumns "shop" "orders" :: [.query columnQuery ["shop", "orders"]],
        .ret ([], none)⟩ ∧
    ∀ ev ∈ (getTbColumns (some (constDB "mysql" ([], none)
        ([mkIndex "id" "PRIMARY" 1], none) (.ok (.ok [])))) "shop" "orders" true).trace,
      ev.isGetTbIndex = false ∧ ev.isWarn = false :=
  getTbColumns_skip_index
    (constDB "mysql" ([], none) ([mkIndex "id" "PRIMARY" 1], none) (.ok (.ok [])))
    (.mysqlTableInfo (constDB "mysql" ([], none) ([mkIndex "id" "PRIMARY" 1], none)
      (.ok (.ok []))))
    [.dbName] [.query columnQuery ["shop", "orders"]] [] "shop" "orders" true rfl rfl
    (Or.inr rfl)

/-! ## The index phase -/

/-- C2. With the index flag set, a non-empty list `cols` fetched without error, and a
provider whose `GetTbIndex` returns the error `e`, `getTbColumns` returns exactly `cols`
with a nil error, and the warnings of the run are exactly one: the one that carries the table
name and the text of `e`. -/
theorem getTbColumns_index_error (db : DB) (mt : ITableInfo) (tr0 trc tri : List Event)
    (cols : List Column) (idx : List Index) (e : String) (schemaName tableName : String)
    (h0 : getITableInfo db = ⟨tr0, .ret mt⟩)
    (hc : mt.GetTbColumns schemaName tableName = ⟨trc, .ret (cols, none)⟩)
    (hne : cols ≠ [])
    (hi : mt.GetTbIndex schemaName tableName = ⟨tri, .ret (idx, some e)⟩) :
    getTbColumns (some db) schemaName tableName true =
      ⟨tr0 ++ Event.getTbColumns schemaName tableName :: trc ++
          Event.getTbIndex schemaName tableName :: tri ++
          [Event.warn "GetTbIndex for %s,err=%s" [tableName, e]],
        .ret (cols, none)⟩ ∧
    (getTbColumns (some db) schemaName tableName true).trace.filter Event.isWarn =
      [Event.warn "GetTbIndex for %s,err=%s" [tableName, e]] := by
  have hlen : cols.length ≠ 0 := by
    intro h
    exact hne (List.length_eq_zero.mp h)
  have hrun : getTbColumns (some db) schemaName tableName true =
      ⟨tr0 ++ Event.getTbColumns schemaName tableName :: trc ++
          Event.getTbIndex schemaName tableName :: tri ++
          [Event.warn "GetTbIndex for %s,err=%s" [tableName, e]],
        .ret (cols, none)⟩ := by
    rw [getTbColumns_step db mt tr0 trc cols none schemaName tableName true h0 hc]
    simp [Run.bind, pure, hlen, hi, Run.emit]
  refine ⟨hrun, ?_⟩
  rw [hrun]
  have h1 := (getITableInfo_ret db tr0 mt h0).1
  have h2 := ITableInfo.GetTbColumns_trace mt schemaName tableName
  have h3 := ITableInfo.GetTbIndex_trace mt schemaName tableName
  rw [hc] at h2
  rw [hi] at h3
  simp only [h1, List.filter_append, List.filter_cons, List.filter_nil, Event.isWarn,
    filter_isWarn_of_queries trc h2, filter_isWarn_of_queries tri h3]
  simp

/-- A MySQL connection whose index scan fails. -/
theorem getTbColumns_index_error_witness :
    getTbColumns (some (constDB "mysql" ([mkColumn "id" "int", mkColumn "status" "int"], none)
        ([], some "access denied") (.ok (.ok [])))) "shop" "orders" true =
      ⟨[.dbName] ++ Event.getTbColumns "shop" "orders" ::
          [.query columnQuery ["shop", "orders"]] ++
          Event.getTbIndex "shop" "orders" :: [.query indexQuery ["shop", "orders"]] ++
          [Event.warn "GetTbIndex for %s,err=%s" ["orders", "access denied"]],
        .ret ([mkColumn "id" "int", mkColumn "status" "int"], none)⟩ ∧
    (getTbColumns (some (constDB "mysql" ([mkColumn "id" "int", mkColumn "status" "int"], none)
        ([], some "access denied") (.ok (.ok [])))) "shop" "orders" true).trace.filter
        Event.isWarn =
      [Event.warn "GetTbIndex for %s,err=%s" ["orders", "access denied"]] :=
  getTbColumns_index_error
    (constDB "mysql" ([mkColumn "id" "int", mkColumn "status" "int"], none)
      ([], some "access denied") (.ok (.ok [])))
    (.mysqlTableInfo (constDB "mysql" ([mkColumn "id" "int", mkColumn "status" "int"], none)
      ([], some "access denied") (.ok (.ok []))))
    [.dbName] [.query columnQuery ["shop", "orders"]] [.query indexQuery ["shop", "orders"]]
    [mkColumn "id" "int", mkColumn "status" "int"] [] "access denied" "shop" "orders"
    rfl rfl (by decide) rfl

/-- C9. `(*postgresTableInfo).GetTbIndex` never returns: whatever the connection, the schema
and the table, it stops with the panic "Not support postgresql". Hence, for a Postgres
connection whose column fetch succeeds with a non-empty list, `getTbColumns` with the index
flag set stops with that panic right after invoking `GetTbIndex`: no column list is returned
and no warning is emitted. -/
theorem postgres_GetTbIndex_fatal (db : DB) (trc : List Event) (cols : List Column)
    (schemaName tableName : String)
    (hname : db.name = "postgres")
    (hc : postgresTableInfo.GetTbColumns db schemaName tableName = ⟨trc, .ret (cols, none)⟩)
    (hne : cols ≠ []) :
    (∀ (d : DB) (s t : String),
      postgresTableInfo.GetTbIndex d s t = ⟨[], .panicked "Not support postgresql"⟩) ∧
    getTbColumns (some db) schemaName tableName true =
      ⟨[.dbName, .getTbColumns schemaName tableName] ++ trc ++
          [.getTbIndex schemaName tableName],
        .panicked "Not support postgresql"⟩ ∧
    ∀ ev ∈ (getTbColumns (some db) schemaName tableName true).trace, ev.isWarn = false := by
  have hlen : cols.length ≠ 0 := by
    intro h
    exact hne (List.length_eq_zero.mp h)
  have h0 := getITableInfo_postgres db hname
  have hc1 : (ITableInfo.postgresTableInfo db).GetTbColumns schemaName tableName =
      ⟨trc, .ret (cols, none)⟩ := hc
  have hrun : getTbColumns (some db) schemaName tableName true =
      ⟨[.dbName, .getTbColumns schemaName tableName] ++ trc ++
          [.getTbIndex schemaName tableName],
        .panicked "Not support postgresql"⟩ := by
    rw [getTbColumns_step db _ _ trc cols none schemaName tableName true h0 hc1]
    simp [Run.bind, pure, hlen, Run.emit, ITableInfo.GetTbIndex, postgresTableInfo.GetTbIndex,
      Run.stop]
  refine ⟨fun _ _ _ => rfl, hrun, ?_⟩
  rw [hrun]
  have h2 := postgres_GetTbColumns_trace db schemaName tableName
  rw [hc] at h2
  intro ev hev
  simp only [List.mem_append, List.mem_cons, List.mem_singleton, List.not_mem_nil,
    or_false] at hev
  rcases hev with ((rfl | rfl) | hq) | rfl
  · rfl
  · rfl
  · exact Event.isWarn_of_isQuery ev (h2 ev hq)
  · rfl

/-- A Postgres connection with one column, probed successfully, asked for with indexes. -/
theorem postgres_GetTbIndex_fatal_witness :
    (∀ (d : DB) (s t : String),
      postgresTableInfo.GetTbIndex d s t = ⟨[], .panicked "Not support postgresql"⟩) ∧
    getTbColumns (some (constDB "postgres" ([mkColumn "id" "varchar"], none)
        ([mkIndex "id" "PRIMARY" 1], none) (.ok (.ok [⟨"id", "INT4"⟩])))) "public" "orders" true =
      ⟨[.dbName, .getTbColumns "public" "orders"] ++
          [.query columnQueryPg ["public", "orders"], .query "select * from orders LIMIT 0" []] ++
          [.getTbIndex "public" "orders"],
        .panicked "Not support postgresql"⟩ ∧
    ∀ ev ∈ (getTbColumns (some (constDB "postgres" ([mkColumn "id" "varchar"], none)
        ([mkIndex "id" "PRIMARY" 1], none) (.ok (.ok [⟨"id", "INT4"⟩])))) "public" "orders"
        true).trace, ev.isWarn = false :=
  postgres_GetTbIndex_fatal
    (constDB "postgres" ([mkColumn "id" "varchar"], none)
      ([mkIndex "id" "PRIMARY" 1], none) (.ok (.ok [⟨"id", "INT4"⟩])))
    [.query columnQueryPg ["public", "orders"], .query "select * from orders LIMIT 0" []]
    [mkColumn "id" "INT4"] "public" "orders" rfl rfl (by decide)

/-! ## Merge -/

theorem GroupByColumn_concat (l : List Index) (x : Index) (k : String) :
    GroupByColumn (l ++ [x]) k =
      if k = x.ColumnName then GroupByColumn l x.ColumnName ++ [x] else GroupByColumn l k := by
  simp [GroupByColumn, List.foldl_append]

/-- The group of a name is the sub-sequence of the entries of that name, in fetch order. -/
theorem GroupByColumn_eq_filter (l : List Index) (k : String) :
    GroupByColumn l k = l.filter (fun x => x.ColumnName == k) := by
  induction l using List.reverseRecOn generalizing k with
  | nil => rfl
  | append_singleton l x ih =>
    rw [GroupByColumn_concat, List.filter_append]
    by_cases h : k = x.ColumnName
    · subst h
      simp [ih]
    · have h2 : ¬ x.ColumnName = k := fun e => h e.symm
      simp [h, h2, ih]

/-- C1. With the index flag set, a non-empty list `cols` and a non-empty list `idx` both
fetched without error, `getTbColumns` returns without error the columns of `cols`, each with
`Indexes` equal to the sub-sequence of `idx` made of the entries whose `ColumnName` is the
column's, in fetch order; a column named by no entry of `idx` gets the empty list. -/
theorem getTbColumns_merge (db : DB) (mt : ITableInfo) (tr0 trc tri : List Event)
    (cols : List Column) (idx : List Index) (schemaName tableName : String)
    (h0 : getITableInfo db = ⟨tr0, .ret mt⟩)
    (hc : mt.GetTbColumns schemaName tableName = ⟨trc, .ret (cols, none)⟩)
    (hne : cols ≠ [])
    (hi : mt.GetTbIndex schemaName tableName = ⟨tri, .ret (idx, none)⟩)
    (hine : idx ≠ []) :
    getTbColumns (some db) schemaName tableName true =
      ⟨tr0 ++ Event.getTbColumns schemaName tableName :: trc ++
          Event.getTbIndex schemaName tableName :: tri,
        .ret (cols.map (fun c =>
          { c with Indexes := idx.filter (fun x => x.ColumnName == c.ColumnName) }), none)⟩ ∧
    ∀ c ∈ cols.map (fun c =>
        { c with Indexes := idx.filter (fun x => x.ColumnName == c.ColumnName) }),
      c.Indexes = idx.filter (fun x => x.ColumnName == c.ColumnName) ∧
      ((∀ x ∈ idx, x.ColumnName ≠ c.ColumnName) → c.Indexes = []) := by
  have hlen : cols.length ≠ 0 := by
    intro h
    exact hne (List.length_eq_zero.mp h)
  have hilen : idx.length ≠ 0 := by
    intro h
    exact hine (List.length_eq_zero.mp h)
  constructor
  · rw [getTbColumns_step db mt tr0 trc cols none schemaName tableName true h0 hc]
    simp [Run.bind, pure, hlen, hilen, hi, Run.emit, GroupByColumn_eq_filter]
  · intro c hcm
    rw [List.mem_map] at hcm
    obtain ⟨c0, _, rfl⟩ := hcm
    refine ⟨rfl, ?_⟩
    intro hno
    rw [List.filter_eq_nil_iff]
    intro x hx
    have := hno x hx
    simpa using this

/-- Columns A, B, C and index entries for A, A, C: A gets its two entries in fetch order, B
none, C one. -/
theorem getTbColumns_merge_witness :
    getTbColumns (some (constDB "mysql"
        ([mkColumn "A" "int", mkColumn "B" "int", mkColumn "C" "int"], none)
        ([mkIndex "A" "k1" 1, mkIndex "A" "k2" 2, mkIndex "C" "k2" 1], none) (.ok (.ok []))))
      "shop" "orders" true =
      ⟨[.dbName, .getTbColumns "shop" "orders", .query columnQuery ["shop", "orders"],
          .getTbIndex "shop" "orders", .query indexQuery ["shop", "orders"]],
        .ret ([{ mkColumn "A" "int" with Indexes := [mkIndex "A" "k1" 1, mkIndex "A" "k2" 2] },
               { mkColumn "B" "int" with Indexes := [] },
               { mkColumn "C" "int" with Indexes := [mkIndex "C" "k2" 1] }], none)⟩ :=
  (getTbColumns_merge
    (constDB "mysql" ([mkColumn "A" "int", mkColumn "B" "int", mkColumn "C" "int"], none)
      ([mkIndex "A" "k1" 1, mkIndex "A" "k2" 2, mkIndex "C" "k2" 1], none) (.ok (.ok [])))
    (.mysqlTableInfo (constDB "mysql"
      ([mkColumn "A" "int", mkColumn "B" "int", mkColumn "C" "int"], none)
      ([mkIndex "A" "k1" 1, mkIndex "A" "k2" 2, mkIndex "C" "k2" 1], none) (.ok (.ok []))))
    [.dbName] [.query columnQuery ["shop", "orders"]] [.query indexQuery ["shop", "orders"]]
    [mkColumn "A" "int", mkColumn "B" "int", mkColumn "C" "int"]
    [mkIndex "A" "k1" 1, mkIndex "A" "k2" 2, mkIndex "C" "k2" 1] "shop" "orders"
    rfl rfl (by decide) rfl (by decide)).1

theorem forall₂_map_of (R : Column → Column → Prop) (f : Column → Column)
    (h : ∀ c, R c (f c)) (l : List Column) : List.Forall₂ R l (l.map f) := by
  induction l with
  | nil => exact List.Forall₂.nil
  | cons a l ih => exact List.Forall₂.cons (h a) ih

theorem forall₂_same_of (R : Column → Column → Prop) (h : ∀ c, R c c) (l : List Column) :
    List.Forall₂ R l l := by
  induction l with
  | nil => exact List.Forall₂.nil
  | cons a l ih => exact List.Forall₂.cons (h a) ih

/-- The run of `getTbColumns` when the provider's column fetch panics. -/
theorem getTbColumns_run_column_panic (db : DB) (mt : ITableInfo) (tr0 trc : List Event)
    (msg : String) (s t : String) (tag : Bool)
    (h0 : getITableInfo db = ⟨tr0, .ret mt⟩)
    (hc : mt.GetTbColumns s t = ⟨trc, .panicked msg⟩) :
    getTbColumns (some db) s t tag = ⟨tr0 ++ Event.getTbColumns s t :: trc, .panicked msg⟩ := by
  simp [getTbColumns, bind, h0, hc, Run.bind, Run.emit]

/-- The run of `getTbColumns` on the path that skips the index phase. -/
theorem getTbColumns_run_skip (db : DB) (mt : ITableInfo) (tr0 trc : List Event)
    (cols : List Column) (s t : String) (tag : Bool)
    (h0 : getITableInfo db = ⟨tr0, .ret mt⟩)
    (hc : mt.GetTbColumns s t = ⟨trc, .ret (cols, none)⟩)
    (hskip : tag = false ∨ cols = []) :
    getTbColumns (some db) s t tag =
      ⟨tr0 ++ Event.getTbColumns s t :: trc, .ret (cols, none)⟩ := by
  rw [getTbColumns_step db mt tr0 trc cols none s t tag h0 hc]
  rcases hskip with h | h
  · subst h
    simp [Run.bind, pure]
  · subst h
    simp [Run.bind, pure]

/-- The run of `getTbColumns` when the provider's index fetch panics. -/
theorem getTbColumns_run_index_panic (db : DB) (mt : ITableInfo) (tr0 trc tri : List Event)
    (cols : List Column) (s t : String) (msg : String)
    (h0 : getITableInfo db = ⟨tr0, .ret mt⟩)
    (hc : mt.GetTbColumns s t = ⟨trc, .ret (cols, none)⟩)
    (hne : cols ≠ [])
    (hi : mt.GetTbIndex s t = ⟨tri, .panicked msg⟩) :
    getTbColumns (some db) s t true =
      ⟨tr0 ++ Event.getTbColumns s t :: trc ++ Event.getTbIndex s t :: tri,
        .panicked msg⟩ := by
  have hlen : cols.length ≠ 0 := fun h => hne (List.length_eq_zero.mp h)
  rw [getTbColumns_step db mt tr0 trc cols none s t true h0 hc]
  simp [Run.bind, pure, hlen, hi, Run.emit]

/-- The run of `getTbColumns` when the provider's index fetch returns an error. -/
theorem getTbColumns_run_index_error (db : DB) (mt : ITableInfo) (tr0 trc tri : List Event)
    (cols : List Column) (idx : List Index) (e : String) (s t : String)
    (h0 : getITableInfo db = ⟨tr0, .ret mt⟩)
    (hc : mt.GetTbColumns s t = ⟨trc, .ret (cols, none)⟩)
    (hne : cols ≠ [])
    (hi : mt.GetTbIndex s t = ⟨tri, .ret (idx, some e)⟩) :
    getTbColumns (some db) s t true =
      ⟨tr0 ++ Event.getTbColumns s t :: trc ++ Event.getTbIndex s t :: tri ++
          [Event.warn "GetTbIndex for %s,err=%s" [t, e]], .ret (cols, none)⟩ := by
  have hlen : cols.length ≠ 0 := fun h => hne (List.length_eq_zero.mp h)
  rw [getTbColumns_step db mt tr0 trc cols none s t true h0 hc]
  simp [Run.bind, pure, hlen, hi, Run.emit]

/-- The run of `getTbColumns` when the provider's index fetch returns no entry. -/
theorem getTbColumns_run_index_empty (db : DB) (mt : ITableInfo) (tr0 trc tri : List Event)
    (cols : List Column) (s t : String)
    (h0 : getITableInfo db = ⟨tr0, .ret mt⟩)
    (hc : mt.GetTbColumns s t = ⟨trc, .ret (cols, none)⟩)
    (hne : cols ≠ [])
    (hi : mt.GetTbIndex s t = ⟨tri, .ret ([], none)⟩) :
    getTbColumns (some db) s t true =
      ⟨tr0 ++ Event.getTbColumns s t :: trc ++ Event.getTbIndex s t :: tri,
        .ret (cols, none)⟩ := by
  have hlen : cols.length ≠ 0 := fun h => hne (List.length_eq_zero.mp h)
  rw [getTbColumns_step db mt tr0 trc cols none s t true h0 hc]
  simp [Run.bind, pure, hlen, hi, Run.emit]

/-- The run of `getTbColumns` when the provider's index fetch returns entries. -/
theorem getTbColumns_run_index_merge (db : DB) (mt : ITableInfo) (tr0 trc tri : List Event)
    (cols : List Column) (idx : List Index) (s t : String)
    (h0 : getITableInfo db = ⟨tr0, .ret mt⟩)
    (hc : mt.GetTbColumns s t = ⟨trc, .ret (cols, none)⟩)
    (hne : cols ≠ [])
    (hi : mt.GetTbIndex s t = ⟨tri, .ret (idx, none)⟩)
    (hine : idx ≠ []) :
    getTbColumns (some db) s t true =
      ⟨tr0 ++ Event.getTbColumns s t :: trc ++ Event.getTbIndex s t :: tri,
        .ret (cols.map (fun c => { c with Indexes := GroupByColumn idx c.ColumnName }),
          none)⟩ := by
  have hlen : cols.length ≠ 0 := fun h => hne (List.length_eq_zero.mp h)
  have hilen : idx.length ≠ 0 := fun h => hine (List.length_eq_zero.mp h)
  rw [getTbColumns_step db mt tr0 trc cols none s t true h0 hc]
  simp [Run.bind, pure, hlen, hilen, hi, Run.emit]

/-- C10. Whenever `getTbColumns` returns without error, a provider was selected and its
`GetTbColumns` succeeded with a list `cols` such that the returned list has the length of
`cols` and agrees with it, position by position, on every field other than `Indexes`; the
returned list differs from `cols` only when the index flag is set and the index fetch
succeeded with a non-empty list. -/
theorem getTbColumns_frame (db : DB) (schemaName tableName : String) (indexTag : Bool)
    (tr : List Event) (res : List Column)
    (h : getTbColumns (some db) schemaName tableName indexTag = ⟨tr, .ret (res, none)⟩) :
    ∃ (mt : ITableInfo) (tr0 trc : List Event) (cols : List Column),
      getITableInfo db = ⟨tr0, .ret mt⟩ ∧
      mt.GetTbColumns schemaName tableName = ⟨trc, .ret (cols, none)⟩ ∧
      res.length = cols.length ∧
      List.Forall₂ Column.sameOffIndexes cols res ∧
      (res ≠ cols → indexTag = true ∧ ∃ (tri : List Event) (idx : List Index),
        mt.GetTbIndex schemaName tableName = ⟨tri, .ret (idx, none)⟩ ∧ idx ≠ []) := by
  have hsame : ∀ c : Column, Column.sameOffIndexes c c := fun c =>
    ⟨rfl, rfl, rfl, rfl, rfl, rfl, rfl, rfl⟩
  obtain ⟨tr0, o0, h0⟩ : ∃ tr0 o0, getITableInfo db = ⟨tr0, o0⟩ := ⟨_, _, rfl⟩
  rcases o0 with mt | msg
  swap
  · simp [getTbColumns, bind, h0, Run.bind] at h
  obtain ⟨trc, oc, hc⟩ : ∃ trc oc, mt.GetTbColumns schemaName tableName = ⟨trc, oc⟩ :=
    ⟨_, _, rfl⟩
  rcases oc with ⟨cols, _ | e⟩ | msg
  · refine ⟨mt, tr0, trc, cols, h0, hc, ?_⟩
    have hunchanged : Outcome.ret (cols, (none : Option String)) = .ret (res, none) →
        res.length = cols.length ∧ List.Forall₂ Column.sameOffIndexes cols res ∧
        (res ≠ cols → indexTag = true ∧ ∃ (tri : List Event) (idx : List Index),
          mt.GetTbIndex schemaName tableName = ⟨tri, .ret (idx, none)⟩ ∧ idx ≠ []) := by
      intro heq
      simp only [Outcome.ret.injEq, Prod.mk.injEq, and_true] at heq
      subst heq
      exact ⟨rfl, forall₂_same_of _ hsame _, fun hne => absurd rfl hne⟩
    by_cases hskip : indexTag = false ∨ cols = []
    · rw [getTbColumns_run_skip db mt tr0 trc cols _ _ _ h0 hc hskip] at h
      exact hunchanged (Run.mk.inj h).2
    · have htag : indexTag = true := by
        cases indexTag
        · exact absurd (Or.inl rfl) hskip
        · rfl
      have hne : cols ≠ [] := fun hn => hskip (Or.inr hn)
      subst htag
      obtain ⟨tri, oi, hi⟩ : ∃ tri oi, mt.GetTbIndex schemaName tableName = ⟨tri, oi⟩ :=
        ⟨_, _, rfl⟩
      rcases oi with ⟨idx, _ | e⟩ | msg
      · cases idx with
        | nil =>
          rw [getTbColumns_run_index_empty db mt tr0 trc tri cols _ _ h0 hc hne hi] at h
          exact hunchanged (Run.mk.inj h).2
        | cons i idx =>
          rw [getTbColumns_run_index_merge db mt tr0 trc tri cols (i :: idx) _ _ h0 hc hne hi
            (by simp)] at h
          have heq := (Run.mk.inj h).2
          simp only [Outcome.ret.injEq, Prod.mk.injEq, and_true] at heq
          subst heq
          refine ⟨by simp, ?_, ?_⟩
          · exact forall₂_map_of _ _ (fun c => ⟨rfl, rfl, rfl, rfl, rfl, rfl, rfl, rfl⟩) cols
          · intro _
            exact ⟨rfl, tri, i :: idx, hi, by simp⟩
      · rw [getTbColumns_run_index_error db mt tr0 trc tri cols idx e _ _ h0 hc hne hi] at h
        exact hunchanged (Run.mk.inj h).2
      · rw [getTbColumns_run_index_panic db mt tr0 trc tri cols _ _ msg h0 hc hne hi] at h
        simp at h
  · rw [getTbColumns_step db mt tr0 trc cols (some e) _ _ _ h0 hc] at h
    simp [Run.bind, pure] at h
  · rw [getTbColumns_run_column_panic db mt tr0 trc msg _ _ _ h0 hc] at h
    simp at h

/-- The merge of columns id, status with one index entry for id. -/
theorem getTbColumns_frame_witness :
    ∃ (mt : ITableInfo) (tr0 trc : List Event) (cols : List Column),
      getITableInfo (constDB "mysql" ([mkColumn "id" "int", mkColumn "status" "int"], none)
        ([mkIndex "id" "PRIMARY" 1], none) (.ok (.ok []))) = ⟨tr0, .ret mt⟩ ∧
      mt.GetTbColumns "shop" "orders" = ⟨trc, .ret (cols, none)⟩ ∧
      [{ mkColumn "id" "int" with Indexes := [mkIndex "id" "PRIMARY" 1] },
        mkColumn "status" "int"].length = cols.length ∧
      List.Forall₂ Column.sameOffIndexes cols
        [{ mkColumn "id" "int" with Indexes := [mkIndex "id" "PRIMARY" 1] },
          mkColumn "status" "int"] ∧
      ([{ mkColumn "id" "int" with Indexes := [mkIndex "id" "PRIMARY" 1] },
          mkColumn "status" "int"] ≠ cols →
        true = true ∧ ∃ (tri : List Event) (idx : List Index),
          mt.GetTbIndex "shop" "orders" = ⟨tri, .ret (idx, none)⟩ ∧ idx ≠ []) :=
  getTbColumns_frame
    (constDB "mysql" ([mkColumn "id" "int", mkColumn "status" "int"], none)
      ([mkIndex "id" "PRIMARY" 1], none) (.ok (.ok [])))
    "shop" "orders" true
    [.dbName, .getTbColumns "shop" "orders", .query columnQuery ["shop", "orders"],
      .getTbIndex "shop" "orders", .query indexQuery ["shop", "orders"]]
    [{ mkColumn "id" "int" with Indexes := [mkIndex "id" "PRIMARY" 1] }, mkColumn "status" "int"]
    rfl

/-! ## The Postgres enrichment join -/

theorem typeMap_concat (l : List ColumnType) (d : ColumnType) (k : String) :
    typeMap (l ++ [d]) k = if k = d.Name then some d else typeMap l k := by
  simp [typeMap, List.foldl_append]

/-- The map built from the descriptors holds, for each name, the last descriptor of that
name. -/
theorem typeMap_eq_lastDescriptor (l : List ColumnType) (k : String) :
    typeMap l k = lastDescriptor l k := by
  induction l using List.reverseRecOn with
  | nil => rfl
  | append_singleton l d ih =>
    rw [typeMap_concat]
    unfold lastDescriptor at ih ⊢
    rw [List.filter_append]
    by_cases h : k = d.Name
    · subst h
      simp
    · have h2 : ¬ d.Name = k := fun e => h e.symm
      simp [h, h2, ih]

theorem lastDescriptor_name (l : List ColumnType) (k : String) (d : ColumnType)
    (h : lastDescriptor l k = some d) : d.Name = k := by
  unfold lastDescriptor at h
  have hm := List.mem_of_getLast?_eq_some h
  simpa using (List.mem_filter.mp hm).2

theorem lastDescriptor_isSome (l : List ColumnType) (k : String)
    (h : ∃ d ∈ l, d.Name = k) : ∃ d, lastDescriptor l k = some d := by
  obtain ⟨d, hd, hk⟩ := h
  unfold lastDescriptor
  have hm : d ∈ l.filter (fun d => d.Name == k) := by
    simp [List.mem_filter, hd, hk]
  cases hl : (l.filter (fun d => d.Name == k)).getLast? with
  | none =>
    rw [List.getLast?_eq_none_iff] at hl
    rw [hl] at hm
    cases hm
  | some x => exact ⟨x, rfl⟩

theorem lastDescriptor_insert (pre post : List ColumnType) (d : ColumnType) (k : String)
    (h : k ≠ d.Name) : lastDescriptor (pre ++ d :: post) k = lastDescriptor (pre ++ post) k := by
  have h2 : ¬ d.Name = k := fun e => h e.symm
  simp [lastDescriptor, List.filter_append, List.filter_cons, h2]

/-- The join loop on columns that all have a descriptor of their name. -/
theorem enrich_ret (m : String → Option ColumnType) (cols : List Column)
    (h : ∀ c ∈ cols, ∃ d, m c.ColumnName = some d ∧ d.Name = c.ColumnName) :
    ∃ res, enrich m cols = ⟨[], .ret res⟩ ∧
      List.Forall₂ (fun c r => ∃ d, m c.ColumnName = some d ∧
        r = { c with ColumnType := d.DatabaseTypeName }) cols res := by
  induction cols with
  | nil => exact ⟨[], rfl, List.Forall₂.nil⟩
  | cons c rest ih =>
    obtain ⟨d, hd, hn⟩ := h c (List.mem_cons_self _ _)
    obtain ⟨res, hres, hall⟩ := ih (fun c1 hc1 => h c1 (List.mem_cons_of_mem _ hc1))
    refine ⟨{ c with ColumnType := d.DatabaseTypeName } :: res, ?_, ?_⟩
    · unfold enrich
      simp [hd, hn, hres, bind, Run.bind, pure]
    · exact List.Forall₂.cons ⟨d, hd, rfl⟩ hall

/-- The join loop depends on the map only through the names of the columns. -/
theorem enrich_congr (m1 m2 : String → Option ColumnType) (cols : List Column)
    (h : ∀ c ∈ cols, m1 c.ColumnName = m2 c.ColumnName) : enrich m1 cols = enrich m2 cols := by
  induction cols with
  | nil => rfl
  | cons c rest ih =>
    unfold enrich
    rw [h c (List.mem_cons_self _ _), ih (fun c1 hc1 => h c1 (List.mem_cons_of_mem _ hc1))]

/-- The join loop panics as soon as one column has no descriptor of its name. -/
theorem enrich_unmatched (m : String → Option ColumnType) (cols : List Column)
    (h : ∃ c ∈ cols, m c.ColumnName = none) :
    enrich m cols = ⟨[], .panicked nilDereference⟩ := by
  induction cols with
  | nil =>
    obtain ⟨c, hc, _⟩ := h
    cases hc
  | cons c rest ih =>
    unfold enrich
    cases hm : m c.ColumnName with
    | none => simp [bind, Run.bind, Run.stop]
    | some t =>
      have hrest : ∃ c1 ∈ rest, m c1.ColumnName = none := by
        obtain ⟨c1, hc1, hn⟩ := h
        rcases List.mem_cons.mp hc1 with rfl | hin
        · rw [hm] at hn
          cases hn
        · exact ⟨c1, hin, hn⟩
      by_cases hn : t.Name = c.ColumnName
      · simp [hn, ih hrest, bind, Run.bind, pure]
      · simp [hn, ih hrest, bind, Run.bind, pure]

/-- When the catalog query and the probe both succeed and some fetched column is named by no
descriptor, `(*postgresTableInfo).GetTbColumns` does not return: it stops with the nil
dereference of `t.Name()`. -/
theorem postgres_GetTbColumns_unmatched (db : DB) (s t : String) (cols : List Column)
    (types : List ColumnType)
    (hs : db.scanColumns columnQueryPg s t = (cols, none))
    (hr : db.rows ("select * from " ++ t ++ " LIMIT 0") = .ok (.ok types))
    (hmiss : ∃ c ∈ cols, ∀ d ∈ types, d.Name ≠ c.ColumnName) :
    postgresTableInfo.GetTbColumns db s t =
      ⟨[.query columnQueryPg [s, t], .query ("select * from " ++ t ++ " LIMIT 0") []],
        .panicked nilDereference⟩ := by
  have hnone : ∃ c ∈ cols, typeMap types c.ColumnName = none := by
    obtain ⟨c, hc, hno⟩ := hmiss
    refine ⟨c, hc, ?_⟩
    rw [typeMap_eq_lastDescriptor]
    cases hl : lastDescriptor types c.ColumnName with
    | none => rfl
    | some d =>
      have hname := lastDescriptor_name types _ d hl
      unfold lastDescriptor at hl
      have hm := (List.mem_filter.mp (List.mem_of_getLast?_eq_some hl)).1
      exact absurd hname (hno d hm)
  unfold postgresTableInfo.GetTbColumns
  simp [hs, hr, enrich_unmatched _ _ hnone, bind, Run.bind, Run.emit]

/-- C7. The catalog reports the columns id and note, the probe a single descriptor, for id:
`(*postgresTableInfo).GetTbColumns` stops with a nil dereference after both queries instead
of returning the columns with note left at its placeholder type, and `getTbColumns` stops
with it. -/
theorem postgres_GetTbColumns_name_mismatch :
    postgresTableInfo.GetTbColumns
        (constDB "postgres" ([mkColumn "id" "varchar", mkColumn "note" "varchar"], none)
          ([], none) (.ok (.ok [⟨"id", "INT4"⟩]))) "public" "orders" =
      ⟨[.query columnQueryPg ["public", "orders"], .query "select * from orders LIMIT 0" []],
        .panicked nilDereference⟩ ∧
    (getTbColumns
        (some (constDB "postgres" ([mkColumn "id" "varchar", mkColumn "note" "varchar"], none)
          ([], none) (.ok (.ok [⟨"id", "INT4"⟩])))) "public" "orders" false).out =
      .panicked nilDereference := by
  constructor <;> rfl

/-- C8. When the catalog query returns `cols` without error, the probe returns the
descriptors `types`, and every column of `cols` is named by some descriptor, then
`(*postgresTableInfo).GetTbColumns` returns without error a list that matches `cols` position
by position: each column has `ColumnType` replaced by the database type name of the last
descriptor of its name and every other field unchanged. Hence a descriptor that names no
column, inserted anywhere among `types`, changes nothing of the result. -/
theorem postgres_GetTbColumns_join (db : DB) (schemaName tableName : String)
    (cols : List Column) (types : List ColumnType)
    (hs : db.scanColumns columnQueryPg schemaName tableName = (cols, none))
    (hr : db.rows ("select * from " ++ tableName ++ " LIMIT 0") = .ok (.ok types))
    (hall : ∀ c ∈ cols, ∃ d ∈ types, d.Name = c.ColumnName) :
    (∃ res : List Column,
      postgresTableInfo.GetTbColumns db schemaName tableName =
        ⟨[.query columnQueryPg [schemaName, tableName],
            .query ("select * from " ++ tableName ++ " LIMIT 0") []],
          .ret (res, none)⟩ ∧
      List.Forall₂ (fun c r => ∃ d, lastDescriptor types c.ColumnName = some d ∧
        r.ColumnType = d.DatabaseTypeName ∧ Column.sameOffColumnType c r) cols res) ∧
    (∀ (before after : List ColumnType) (extra : ColumnType),
      types = before ++ after → (∀ c ∈ cols, c.ColumnName ≠ extra.Name) →
      postgresTableInfo.GetTbColumns
          { db with rows := fun _ => .ok (.ok (before ++ extra :: after)) }
          schemaName tableName =
        postgresTableInfo.GetTbColumns db schemaName tableName) := by
  constructor
  · have hm : ∀ c ∈ cols, ∃ d, typeMap types c.ColumnName = some d ∧ d.Name = c.ColumnName := by
      intro c hc
      obtain ⟨d, hd⟩ := lastDescriptor_isSome types c.ColumnName (hall c hc)
      exact ⟨d, by rw [typeMap_eq_lastDescriptor, hd], lastDescriptor_name types _ d hd⟩
    obtain ⟨res, hres, hfa⟩ := enrich_ret (typeMap types) cols hm
    refine ⟨res, ?_, ?_⟩
    · unfold postgresTableInfo.GetTbColumns
      simp [hs, hr, hres, bind, Run.bind, Run.emit, pure]
    · refine List.Forall₂.imp ?_ hfa
      intro c r hcr
      obtain ⟨d, hd, rfl⟩ := hcr
      rw [typeMap_eq_lastDescriptor] at hd
      exact ⟨d, hd, rfl, rfl, rfl, rfl, rfl, rfl, rfl, rfl, rfl⟩
  · intro before after extra htypes hno
    have hmaps : ∀ c ∈ cols,
        typeMap (before ++ extra :: after) c.ColumnName = typeMap types c.ColumnName := by
      intro c hc
      rw [typeMap_eq_lastDescriptor, typeMap_eq_lastDescriptor, htypes]
      exact lastDescriptor_insert before after extra c.ColumnName (hno c hc)
    unfold postgresTableInfo.GetTbColumns
    simp only [hs, hr]
    rw [enrich_congr _ _ cols hmaps]

/-- Columns id, note, and descriptors for id, note and id again: id takes the type of its
last descriptor. -/
theorem postgres_GetTbColumns_join_witness :
    postgresTableInfo.GetTbColumns
        (constDB "postgres" ([mkColumn "id" "varchar", mkColumn "note" "varchar"], none)
          ([], none) (.ok (.ok [⟨"id", "INT4"⟩, ⟨"note", "TEXT"⟩, ⟨"id", "INT8"⟩])))
        "public" "orders" =
      ⟨[.query columnQueryPg ["public", "orders"], .query "select * from orders LIMIT 0" []],
        .ret ([mkColumn "id" "INT8", mkColumn "note" "TEXT"], none)⟩ ∧
    postgresTableInfo.GetTbColumns
        { constDB "postgres" ([mkColumn "id" "varchar", mkColumn "note" "varchar"], none)
            ([], none) (.ok (.ok [⟨"id", "INT4"⟩, ⟨"note", "TEXT"⟩, ⟨"id", "INT8"⟩])) with
          rows := fun _ => .ok (.ok ([⟨"id", "INT4"⟩] ++ ⟨"ghost", "BOOL"⟩ ::
            [⟨"note", "TEXT"⟩, ⟨"id", "INT8"⟩])) }
        "public" "orders" =
      postgresTableInfo.GetTbColumns
        (constDB "postgres" ([mkColumn "id" "varchar", mkColumn "note" "varchar"], none)
          ([], none) (.ok (.ok [⟨"id", "INT4"⟩, ⟨"note", "TEXT"⟩, ⟨"id", "INT8"⟩])))
        "public" "orders" :=
  ⟨rfl,
   (postgres_GetTbColumns_join
      (constDB "postgres" ([mkColumn "id" "varchar", mkColumn "note" "varchar"], none)
        ([], none) (.ok (.ok [⟨"id", "INT4"⟩, ⟨"note", "TEXT"⟩, ⟨"id", "INT8"⟩])))
      "public" "orders" [mkColumn "id" "varchar", mkColumn "note" "varchar"]
      [⟨"id", "INT4"⟩, ⟨"note", "TEXT"⟩, ⟨"id", "INT8"⟩] rfl rfl (by decide)).2
      [⟨"id", "INT4"⟩] [⟨"note", "TEXT"⟩, ⟨"id", "INT8"⟩] ⟨"ghost", "BOOL"⟩ rfl (by decide)⟩

end Check
